import Mathlib

/-!
Shallow embedding of the `galleon` logging facade.

The repository has two near-identical facade variants:
* `src/core/src/logger.rs` — built on the `log` crate (`CoreState`, `coreStep`, …);
* `src/common/src/logger.rs` — built on `tracing` (`CommonState`, `commonStep`, …).

Levels follow the `log` crate's numeric encoding: `Error = 1 < Warn = 2 <
Info = 3 < Debug = 4 < Trace = 5`, with the filter sentinel `Off = 0`.  A
record passes the global filter iff
`record.level().to_level_filter() <= log::max_level()`, i.e. iff the level's
numeric code is at most the filter's numeric code (`levelPasses`).

Sinks are registered in a `HashMap<TypeId, Box<dyn Sink>>`; we model the map
as a list of `Sink` values whose `kind` field stands for the `TypeId` key
(`kindsNodup` is the map's key-uniqueness invariant) and whose `instId`
field distinguishes instances of the same concrete type.  Map iteration
order is unspecified in Rust; the list order is one admissible order.
`Sink.enabled` models the trait object's `enabled` method.
-/

namespace Galleon

inductive Level
  | error
  | warn
  | info
  | debug
  | trace
deriving DecidableEq, Repr

inductive LevelFilter
  | off
  | error
  | warn
  | info
  | debug
  | trace
deriving DecidableEq, Repr

/-- The `log` crate's numeric code of a filter (`Off = 0`, …, `Trace = 5`). -/
def LevelFilter.toNat : LevelFilter → Nat
  | .off => 0
  | .error => 1
  | .warn => 2
  | .info => 3
  | .debug => 4
  | .trace => 5

/-- `Level::to_level_filter`. -/
def Level.toLevelFilter : Level → LevelFilter
  | .error => .error
  | .warn => .warn
  | .info => .info
  | .debug => .debug
  | .trace => .trace

/-- `metadata.level().to_level_filter() <= log::max_level()`: the global
pre-filter check of `Logger::enabled` in `src/core/src/logger.rs`.  A level
is "less severe" than the filter exactly when this returns `false`. -/
def levelPasses (lvl : Level) (filter : LevelFilter) : Bool :=
  lvl.toLevelFilter.toNat ≤ filter.toNat

/-- One registered sink: `kind` models `TypeId::of::<S>()`, `instId`
distinguishes instances of one kind, `enabled` models `Sink::enabled`. -/
structure Sink where
  kind : Nat
  instId : Nat
  enabled : Level → Bool

/-- The observable identity of a sink instance. -/
def Sink.ref (s : Sink) : Nat × Nat :=
  (s.kind, s.instId)

/-- `self.sinks.lock().unwrap().insert(TypeId::of::<S>(), Box::new(sink.clone()))`:
inserting into the `HashMap` replaces any entry with the same key. -/
def insertSink (r : List Sink) (s : Sink) : List Sink :=
  r.filter (fun t => t.kind != s.kind) ++ [s]

/-- `self.sinks.lock().unwrap().remove(&TypeId::of::<S>())`. -/
def removeKind (r : List Sink) (k : Nat) : List Sink :=
  r.filter (fun t => t.kind != k)

/-- `fn remove_sink<S: Sink + Clone + 'static>(&self, _sink: &S)`: the sink
argument's value is ignored (`_sink`); only its concrete type's `TypeId` is
used as the removal key. -/
def removeSinkOp (r : List Sink) (s : Sink) : List Sink :=
  removeKind r s.kind

/-- The `HashMap` key-uniqueness invariant: at most one entry per kind. -/
def kindsNodup (r : List Sink) : Prop :=
  (r.map Sink.kind).Nodup

/-- The dispatch loop of `Logger::log`:
`for sink in sinks { if sink.enabled(..) { sink.log(record) } }`.
Returns the references of the sinks whose `log` was called, in iteration
order. -/
def logLoop : List Sink → Level → List (Nat × Nat)
  | [], _ => []
  | s :: rest, lvl =>
    if s.enabled lvl then s.ref :: logLoop rest lvl else logLoop rest lvl

/-- The loop of `Logger::flush`: `for sink in sinks { sink.flush() }`. -/
def flushLoop : List Sink → List (Nat × Nat)
  | [] => []
  | s :: rest => s.ref :: flushLoop rest

/-- `startup`'s only surfaced error (`LoggerError` in both variants). -/
inductive LoggerError
  | AlreadyInitialized
deriving DecidableEq, Repr

/-- State of the `log`-crate facade (`src/core/src/logger.rs`):
`started` = the `LOGGER` `OnceLock` is set and `log::set_logger` succeeded
(both happen together, on the first `startup` call, and can never be
undone); `maxLevel` = `log::max_level()` (initially `Off` in the `log`
crate); `registry` = the sinks map. -/
structure CoreState where
  started : Bool
  maxLevel : LevelFilter
  registry : List Sink

/-- The process state before any facade call. -/
def initCoreState : CoreState :=
  { started := false, maxLevel := .off, registry := [] }

/-- `pub fn startup(max_level: LevelFilter)` in `src/core/src/logger.rs`:
`log::set_logger` fails iff a logger was already installed; on failure the
`?` operator returns before `set_max_level` runs, so nothing changes. -/
def coreStartup (st : CoreState) (maxLevel : LevelFilter) :
    CoreState × Except LoggerError Unit :=
  if st.started then
    (st, .error .AlreadyInitialized)
  else
    ({ st with started := true, maxLevel := maxLevel }, .ok ())

/-- `Logger::log` in `src/core/src/logger.rs`, as reached through the `log`
macros: before `startup` the crate dispatches to a no-op logger (hence the
`started` guard); `Logger::log` itself checks `self.enabled` (the global
filter) and then runs the dispatch loop.  Returns the sinks whose `log` was
called. -/
def coreLog (st : CoreState) (lvl : Level) : List (Nat × Nat) :=
  if st.started && levelPasses lvl st.maxLevel then
    logLoop st.registry lvl
  else
    []

/-- `Logger::flush` as reached through `log::logger().flush()`; a no-op
before `startup`. -/
def coreFlush (st : CoreState) : List (Nat × Nat) :=
  if st.started then flushLoop st.registry else []

/-- One observable step of a `shutdown` call. -/
inductive ShutdownStep
  | setFilterOff
  | flushSink (kind instId : Nat)
  | clearRegistry
deriving DecidableEq, Repr

/-- The step sequence of `pub fn shutdown()` in `src/core/src/logger.rs`:
`log::set_max_level(LevelFilter::Off); logger.flush(); logger.clear();`
— the filter is forced `Off` FIRST, then every sink is flushed, then the
registry is cleared.  No-op when `LOGGER.get()` is `None`. -/
def coreShutdownSteps (st : CoreState) : List ShutdownStep :=
  if st.started then
    .setFilterOff ::
      ((st.registry.map fun s => .flushSink s.kind s.instId) ++ [.clearRegistry])
  else
    []

/-- The facade operations (the `emit` payload beyond the level does not
affect facade state). -/
inductive Op
  | opStartup (lv : LevelFilter)
  | opShutdown
  | opAddSink (s : Sink)
  | opRemoveSink (s : Sink)
  | opSetMaxLevel (lv : LevelFilter)
  | opEmit (lvl : Level)
  | opFlush

/-- State transition of each public function of `src/core/src/logger.rs`.
`add_sink` / `remove_sink` / `shutdown` are guarded by `LOGGER.get()`;
`set_max_level` is NOT guarded — it calls `log::set_max_level(level)`
unconditionally.  `Logger::log` and `Logger::flush` take `&self` and only
read the map, so `emit`/`flush` leave the facade state untouched. -/
def coreStep (st : CoreState) : Op → CoreState
  | .opStartup lv => (coreStartup st lv).1
  | .opShutdown =>
    if st.started then { st with maxLevel := .off, registry := [] } else st
  | .opAddSink s =>
    if st.started then { st with registry := insertSink st.registry s } else st
  | .opRemoveSink s =>
    if st.started then { st with registry := removeSinkOp st.registry s } else st
  | .opSetMaxLevel lv => { st with maxLevel := lv }
  | .opEmit _ => st
  | .opFlush => st

/-- State of the `tracing`-based facade (`src/common/src/logger.rs`):
`started` = the `LOGGER` `OnceLock` is set and
`tracing::subscriber::set_global_default` succeeded; `maxLevel` = the
reload layer's filter; `registry` = the sinks map.  Before `startup` no
subscriber exists, so events are dropped (the `started` guard); the
pre-`startup` `maxLevel` value is a placeholder that nothing observes. -/
structure CommonState where
  started : Bool
  maxLevel : LevelFilter
  registry : List Sink

def initCommonState : CommonState :=
  { started := false, maxLevel := .off, registry := [] }

/-- `pub fn startup(max_level: LevelFilter)` in `src/common/src/logger.rs`:
`set_global_default` fails iff a default subscriber was already installed;
the freshly built reload layer of a failing call is discarded, so nothing
observable changes. -/
def commonStartup (st : CommonState) (maxLevel : LevelFilter) :
    CommonState × Except LoggerError Unit :=
  if st.started then
    (st, .error .AlreadyInitialized)
  else
    ({ st with started := true, maxLevel := maxLevel }, .ok ())

/-- An emitted event as it reaches the sinks in `src/common/src/logger.rs`:
the subscriber's `LevelFilter` layer applies the global filter before
`Logger::on_event` runs, and `Logger::log` then runs the per-sink dispatch
loop (which itself has no global-filter check). -/
def commonEmit (st : CommonState) (lvl : Level) : List (Nat × Nat) :=
  if st.started && levelPasses lvl st.maxLevel then
    logLoop st.registry lvl
  else
    []

def commonFlush (st : CommonState) : List (Nat × Nat) :=
  if st.started then flushLoop st.registry else []

/-- The step sequence of `pub fn shutdown()` in `src/common/src/logger.rs`:
`logger.flush(); logger.clear(); logger.set_max_level(LevelFilter::OFF);`
— flush every sink, then clear the registry, then force the filter `Off`. -/
def commonShutdownSteps (st : CommonState) : List ShutdownStep :=
  if st.started then
    (st.registry.map fun s => .flushSink s.kind s.instId) ++
      [.clearRegistry, .setFilterOff]
  else
    []

/-- State transition of each public function of `src/common/src/logger.rs`.
Unlike the core variant, `set_max_level` is guarded by `LOGGER.get()`. -/
def commonStep (st : CommonState) : Op → CommonState
  | .opStartup lv => (commonStartup st lv).1
  | .opShutdown =>
    if st.started then { st with maxLevel := .off, registry := [] } else st
  | .opAddSink s =>
    if st.started then { st with registry := insertSink st.registry s } else st
  | .opRemoveSink s =>
    if st.started then { st with registry := removeSinkOp st.registry s } else st
  | .opSetMaxLevel lv =>
    if st.started then { st with maxLevel := lv } else st
  | .opEmit _ => st
  | .opFlush => st

/-! ### Field formatting (`StringVisitor` in `src/common/src/logger.rs`)

A typed field value as the `tracing` visitor receives it.  Rust's `Display`
rendering of `f64`, of error values, and the `Debug` rendering of arbitrary
values are carried as already-rendered text (they have no counterpart
here); integers, booleans and strings are rendered in Lean, matching Rust's
`Display` output (decimal integers, `true`/`false`, text verbatim). -/

inductive FieldValue
  | fF64 (text : String)
  | fI64 (v : Int)
  | fU64 (v : Nat)
  | fI128 (v : Int)
  | fU128 (v : Nat)
  | fBool (b : Bool)
  | fStr (s : String)
  | fError (text : String)
  | fDebug (text : String)

/-- The text a value contributes: `record_f64`/`record_i64`/…/`record_str`/
`record_error` all forward to `record_display` with the value's `Display`
text, while `record_debug` writes the `Debug` text (`{:?}`). -/
def FieldValue.render : FieldValue → String
  | .fF64 t => t
  | .fI64 v => toString v
  | .fU64 v => toString v
  | .fI128 v => toString v
  | .fU128 v => toString v
  | .fBool b => if b then "true" else "false"
  | .fStr s => s
  | .fError t => t
  | .fDebug t => t

/-- A named field as declared at the emit call site. -/
structure Field where
  name : String
  value : FieldValue

/-- The accumulator of `StringVisitor { msg: String, args: String }`. -/
structure StringVisitor where
  msg : String
  args : String

/-- One visitor step (`record_display` / `record_debug` share this shape):
a field named `message` appends its rendering to `msg`; any other field
appends `" "` (only when `args` is nonempty already) and then
`name=value` to `args`. -/
def StringVisitor.recordField (vis : StringVisitor) (f : Field) : StringVisitor :=
  if f.name == "message" then
    { vis with msg := vis.msg ++ f.value.render }
  else
    { vis with
      args :=
        vis.args ++ (if vis.args.isEmpty then "" else " ") ++
          f.name ++ "=" ++ f.value.render }

/-- `event.record(&mut visitor)` with a fresh `StringVisitor::default()`:
fields are visited in declaration order. -/
def visitFields (fields : List Field) : StringVisitor :=
  fields.foldl StringVisitor.recordField { msg := "", args := "" }

/-- The primary message text `Logger::on_event` passes to `Logger::log`. -/
def onEventMsg (fields : List Field) : String :=
  (visitFields fields).msg

/-- The args string `Logger::on_event` passes to `Logger::log`:
`None` iff `visitor.args.is_empty()`. -/
def onEventArgs (fields : List Field) : Option String :=
  let vis := visitFields fields
  if vis.args.isEmpty then none else some vis.args

/-- Spec-side formulation ("all remaining fields are formatted into
`key=value` tokens in declaration order"): the token list of the
non-`message` fields. -/
def specArgTokens (fields : List Field) : List String :=
  (fields.filter fun f => f.name != "message").map
    fun f => f.name ++ "=" ++ f.value.render

/-- Spec-side formulation ("joined by single spaces"). -/
def specJoinSpace : List String → String
  | [] => ""
  | [t] => t
  | t :: t2 :: ts => t ++ " " ++ specJoinSpace (t2 :: ts)

/-- Spec-side formulation ("the field named `message` supplies/extends the
primary message text"): the concatenation, in declaration order, of the
renderings of the fields named `message`. -/
def specMsgConcat : List Field → String
  | [] => ""
  | f :: rest =>
    if f.name == "message" then f.value.render ++ specMsgConcat rest
    else specMsgConcat rest

/-- Proof helper: `" " ++ t₁ ++ " " ++ t₂ ++ …` — the text a nonempty args
accumulator grows by when the tokens `ts` are appended to it. -/
def specTailTokens : List String → String
  | [] => ""
  | t :: ts => " " ++ t ++ specTailTokens ts

/-! ### Sink faults (for the dispatch-isolation property)

The dispatch loops contain no isolation (no `catch_unwind`): a panic inside
`sink.log(..)` or `sink.flush()` unwinds straight out of the `for` loop, so
no later sink is called.  `FaultySink` extends a sink with fault flags and
the loops below model the unwinding: the first component lists the sinks
whose operation was invoked (the faulting one included — its call was
entered), the second names the faulting sink, if any. -/

structure FaultySink where
  kind : Nat
  instId : Nat
  enabled : Level → Bool
  logFaults : Bool
  flushFaults : Bool

/-- `Logger::log`'s loop when a sink may panic inside `log`. -/
def logCallsWithFault : List FaultySink → Level → List (Nat × Nat) × Option (Nat × Nat)
  | [], _ => ([], none)
  | s :: rest, lvl =>
    if s.enabled lvl then
      if s.logFaults then
        ([(s.kind, s.instId)], some (s.kind, s.instId))
      else
        let r := logCallsWithFault rest lvl
        ((s.kind, s.instId) :: r.1, r.2)
    else
      logCallsWithFault rest lvl

/-- `Logger::flush`'s loop when a sink may panic inside `flush`. -/
def flushCallsWithFault : List FaultySink → List (Nat × Nat) × Option (Nat × Nat)
  | [] => ([], none)
  | s :: rest =>
    if s.flushFaults then
      ([(s.kind, s.instId)], some (s.kind, s.instId))
    else
      let r := flushCallsWithFault rest
      ((s.kind, s.instId) :: r.1, r.2)

/-! ### Concrete instances used by witnesses and counterexamples -/

/-- A sink of kind 1, instance 1, enabled at every level. -/
def sinkA : Sink :=
  { kind := 1, instId := 1, enabled := fun _ => true }

/-- A second instance of kind 1. -/
def sinkB : Sink :=
  { kind := 1, instId := 2, enabled := fun _ => true }

/-- A sink of kind 2 that accepts no level. -/
def sinkC : Sink :=
  { kind := 2, instId := 3, enabled := fun _ => false }

/-- A running core facade with `sinkA` registered and filter `Info`. -/
def stCore1 : CoreState :=
  { started := true, maxLevel := .info, registry := [sinkA] }

/-- A running core facade with `sinkA` and `sinkC` registered. -/
def stCore2 : CoreState :=
  { started := true, maxLevel := .info, registry := [sinkA, sinkC] }

/-- A running common facade with `sinkA` and `sinkC` registered. -/
def stCommon2 : CommonState :=
  { started := true, maxLevel := .info, registry := [sinkA, sinkC] }

/-- A sink that panics inside `log`. -/
def faultyLogSink : FaultySink :=
  { kind := 1, instId := 1, enabled := fun _ => true,
    logFaults := true, flushFaults := false }

/-- A sink that panics inside `flush`. -/
def faultyFlushSink : FaultySink :=
  { kind := 3, instId := 3, enabled := fun _ => true,
    logFaults := false, flushFaults := true }

/-- A well-behaved sink of kind 2, enabled at every level. -/
def plainSink : FaultySink :=
  { kind := 2, instId := 2, enabled := fun _ => true,
    logFaults := false, flushFaults := false }

/-! ### Helper lemmas -/

theorem mem_logLoop {p : Nat × Nat} {r : List Sink} {lvl : Level}
    (h : p ∈ logLoop r lvl) : ∃ t, t ∈ r ∧ t.ref = p ∧ t.enabled lvl = true := by
  induction r with
  | nil => simp [logLoop] at h
  | cons t rest ih =>
    by_cases he : t.enabled lvl
    · rw [logLoop, if_pos he] at h
      rcases List.mem_cons.mp h with rfl | h'
      · exact ⟨t, List.mem_cons_self t rest, rfl, he⟩
      · obtain ⟨u, hu, hur, hue⟩ := ih h'
        exact ⟨u, List.mem_cons_of_mem t hu, hur, hue⟩
    · rw [logLoop, if_neg he] at h
      obtain ⟨u, hu, hur, hue⟩ := ih h
      exact ⟨u, List.mem_cons_of_mem t hu, hur, hue⟩

theorem logLoop_count (r : List Sink) (lvl : Level) (s : Sink)
    (hn : kindsNodup r) (hs : s ∈ r) :
    (logLoop r lvl).count s.ref = if s.enabled lvl then 1 else 0 := by
  induction r with
  | nil => cases hs
  | cons t rest ih =>
    have hn0 : (t.kind :: rest.map Sink.kind).Nodup := by
      simpa [kindsNodup, List.map_cons] using hn
    have hk : t.kind ∉ rest.map Sink.kind := (List.nodup_cons.mp hn0).1
    have hn' : kindsNodup rest := (List.nodup_cons.mp hn0).2
    rcases List.mem_cons.mp hs with rfl | hs'
    · have hz : (logLoop rest lvl).count s.ref = 0 := by
        rw [List.count_eq_zero]
        intro hmem
        obtain ⟨u, hu, hur, _⟩ := mem_logLoop hmem
        have : u.kind = s.kind := congrArg Prod.fst hur
        exact hk (this ▸ List.mem_map_of_mem Sink.kind hu)
      by_cases he : s.enabled lvl
      · rw [logLoop, if_pos he, List.count_cons_self, hz, if_pos he]
      · rw [logLoop, if_neg he, hz, if_neg he]
    · have hsk : s.kind ∈ rest.map Sink.kind := List.mem_map_of_mem Sink.kind hs'
      have hne : s.ref ≠ t.ref := by
        intro hcontra
        have : s.kind = t.kind := congrArg Prod.fst hcontra
        exact hk (this ▸ hsk)
      by_cases he : t.enabled lvl
      · rw [logLoop, if_pos he, List.count_cons_of_ne hne, ih hn' hs']
      · rw [logLoop, if_neg he, ih hn' hs']

theorem levelPasses_off (lvl : Level) : levelPasses lvl .off = false := by
  cases lvl <;> rfl

/-! ### The claims -/

/-- C1: for every emit while the facade is running, a record whose level is
less severe than the severity filter (the global pre-filter check fails)
reaches no sink; otherwise every sink registered at dispatch time whose
`enabled(level)` returns `true` receives the record exactly once, and a
sink whose `enabled` returns `false` receives it zero times.  Proved for
both facade variants (`coreLog` of `src/core/src/logger.rs` and
`commonEmit` of `src/common/src/logger.rs`). -/
theorem emit_exactly_once
    (st : CoreState) (stc : CommonState) (lvl : Level)
    (hrun : st.started = true) (hn : kindsNodup st.registry)
    (hrunc : stc.started = true) (hnc : kindsNodup stc.registry) :
    (levelPasses lvl st.maxLevel = false → coreLog st lvl = []) ∧
    (levelPasses lvl st.maxLevel = true →
      ∀ s ∈ st.registry,
        (coreLog st lvl).count s.ref = if s.enabled lvl then 1 else 0) ∧
    (levelPasses lvl stc.maxLevel = false → commonEmit stc lvl = []) ∧
    (levelPasses lvl stc.maxLevel = true →
      ∀ s ∈ stc.registry,
        (commonEmit stc lvl).count s.ref = if s.enabled lvl then 1 else 0) := by
  refine ⟨fun h => by simp [coreLog, hrun, h], fun h s hs => ?_,
    fun h => by simp [commonEmit, hrunc, h], fun h s hs => ?_⟩
  · rw [coreLog, hrun, h]
    simpa using logLoop_count st.registry lvl s hn hs
  · rw [commonEmit, hrunc, h]
    simpa using logLoop_count stc.registry lvl s hnc hs

/-- Witness for C1: a concrete running state with an enabled sink of kind 1
and a disabled sink of kind 2, at level `Info` against filter `Info`:
the enabled sink is delivered to exactly once, the disabled one zero
times; at level `Debug` (less severe than `Info`) nothing is delivered. -/
theorem emit_exactly_once_witness :
    (stCore2.started = true ∧ kindsNodup stCore2.registry ∧
      stCommon2.started = true ∧ kindsNodup stCommon2.registry) ∧
    ((levelPasses .info stCore2.maxLevel = false → coreLog stCore2 .info = []) ∧
      (levelPasses .info stCore2.maxLevel = true →
        ∀ s ∈ stCore2.registry,
          (coreLog stCore2 .info).count s.ref = if s.enabled .info then 1 else 0) ∧
      (levelPasses .info stCommon2.maxLevel = false → commonEmit stCommon2 .info = []) ∧
      (levelPasses .info stCommon2.maxLevel = true →
        ∀ s ∈ stCommon2.registry,
          (commonEmit stCommon2 .info).count s.ref =
            if s.enabled .info then 1 else 0)) :=
  ⟨⟨rfl, by unfold kindsNodup; decide, rfl, by unfold kindsNodup; decide⟩,
    emit_exactly_once stCore2 stCommon2 .info rfl (by unfold kindsNodup; decide)
      rfl (by unfold kindsNodup; decide)⟩

theorem flushSteps_count (r : List Sink) (hn : kindsNodup r) (s : Sink) (hs : s ∈ r) :
    (r.map fun t => ShutdownStep.flushSink t.kind t.instId).count
      (.flushSink s.kind s.instId) = 1 := by
  have hnd : (r.map fun t => ShutdownStep.flushSink t.kind t.instId).Nodup := by
    apply List.Nodup.of_map (fun step => match step with | .flushSink k _ => k | _ => 0)
    simpa [List.map_map, Function.comp] using hn
  exact List.count_eq_one_of_mem hnd
    (List.mem_map_of_mem (fun t => ShutdownStep.flushSink t.kind t.instId) hs)

/-- C2 counterexample: in the `src/core/src/logger.rs` variant, `shutdown`
on a running facade with one registered sink does NOT follow the claimed
order flush → clear → force-Off: the code forces the filter `Off` first
(`log::set_max_level(LevelFilter::Off)` precedes `logger.flush()`). -/
theorem shutdown_order_counterexample :
    coreShutdownSteps stCore1 =
      [.setFilterOff, .flushSink 1 1, .clearRegistry] ∧
    coreShutdownSteps stCore1 ≠
      (stCore1.registry.map fun s => ShutdownStep.flushSink s.kind s.instId) ++
        [ShutdownStep.clearRegistry, ShutdownStep.setFilterOff] := by
  exact ⟨rfl, by decide⟩

/-- C2 amended: in the `tracing` variant (`src/common/src/logger.rs`)
`shutdown` on a started facade performs exactly the claimed order — flush
each currently registered sink, then clear the registry, then force the
filter `Off` — while the `log`-crate variant (`src/core/src/logger.rs`)
forces the filter `Off` FIRST and then flushes each sink and clears the
registry.  In both variants each registered sink's `flush` is called
exactly once and afterwards the filter is `Off` and the registry empty. -/
theorem shutdown_steps_amended
    (st : CoreState) (stc : CommonState)
    (h : st.started = true) (hc : stc.started = true)
    (hn : kindsNodup st.registry) (hnc : kindsNodup stc.registry) :
    commonShutdownSteps stc =
      (stc.registry.map fun s => .flushSink s.kind s.instId) ++
        [.clearRegistry, .setFilterOff] ∧
    coreShutdownSteps st =
      .setFilterOff ::
        ((st.registry.map fun s => .flushSink s.kind s.instId) ++ [.clearRegistry]) ∧
    (∀ s ∈ st.registry,
      (coreShutdownSteps st).count (.flushSink s.kind s.instId) = 1) ∧
    (∀ s ∈ stc.registry,
      (commonShutdownSteps stc).count (.flushSink s.kind s.instId) = 1) ∧
    (coreStep st .opShutdown).maxLevel = .off ∧
    (coreStep st .opShutdown).registry = [] ∧
    (commonStep stc .opShutdown).maxLevel = .off ∧
    (commonStep stc .opShutdown).registry = [] := by
  refine ⟨by simp [commonShutdownSteps, hc], by simp [coreShutdownSteps, h],
    fun s hs => ?_, fun s hs => ?_,
    by simp [coreStep, h], by simp [coreStep, h],
    by simp [commonStep, hc], by simp [commonStep, hc]⟩
  · rw [coreShutdownSteps, h]
    simp only [if_pos, List.count_cons, List.count_append]
    rw [flushSteps_count st.registry hn s hs]
    simp
  · rw [commonShutdownSteps, hc]
    simp only [if_pos, List.count_cons, List.count_append]
    rw [flushSteps_count stc.registry hnc s hs]
    simp

/-- Witness for C2's amended theorem at the concrete running states
`stCore1` and `stCommon2`. -/
theorem shutdown_steps_amended_witness :
    (stCore1.started = true ∧ stCommon2.started = true ∧
      kindsNodup stCore1.registry ∧ kindsNodup stCommon2.registry) ∧
    (commonShutdownSteps stCommon2 =
      (stCommon2.registry.map fun s => .flushSink s.kind s.instId) ++
        [.clearRegistry, .setFilterOff] ∧
    coreShutdownSteps stCore1 =
      .setFilterOff ::
        ((stCore1.registry.map fun s => .flushSink s.kind s.instId) ++
          [.clearRegistry]) ∧
    (∀ s ∈ stCore1.registry,
      (coreShutdownSteps stCore1).count (.flushSink s.kind s.instId) = 1) ∧
    (∀ s ∈ stCommon2.registry,
      (commonShutdownSteps stCommon2).count (.flushSink s.kind s.instId) = 1) ∧
    (coreStep stCore1 .opShutdown).maxLevel = .off ∧
    (coreStep stCore1 .opShutdown).registry = [] ∧
    (commonStep stCommon2 .opShutdown).maxLevel = .off ∧
    (commonStep stCommon2 .opShutdown).registry = []) :=
  ⟨⟨rfl, rfl, by unfold kindsNodup; decide, by unfold kindsNodup; decide⟩,
    shutdown_steps_amended stCore1 stCommon2 rfl rfl
      (by unfold kindsNodup; decide) (by unfold kindsNodup; decide)⟩

/-- C3: from the initial (uninitialized) state, `startup(initial_level)`
succeeds and installs the given severity filter; on any started state —
and `started` once true is preserved by every operation, so on every state
after the first successful `startup` — a further `startup` returns
`AlreadyInitialized` and returns the state unchanged.  Proved for both
variants. -/
theorem startup_once
    (lv lv2 lv3 : LevelFilter) (st : CoreState) (stc : CommonState) (op : Op)
    (h : st.started = true) (hc : stc.started = true) :
    coreStartup initCoreState lv =
      ({ started := true, maxLevel := lv, registry := [] }, .ok ()) ∧
    coreStartup st lv2 = (st, .error .AlreadyInitialized) ∧
    (coreStep st op).started = true ∧
    commonStartup initCommonState lv =
      ({ started := true, maxLevel := lv, registry := [] }, .ok ()) ∧
    commonStartup stc lv3 = (stc, .error .AlreadyInitialized) ∧
    (commonStep stc op).started = true := by
  refine ⟨rfl, by simp [coreStartup, h], ?_, rfl, by simp [commonStartup, hc], ?_⟩
  · cases op <;> simp [coreStep, coreStartup, h]
  · cases op <;> simp [commonStep, commonStartup, hc]

/-- Witness for C3 at filter `Warn` and a started state, with a further
`set_max_level` step showing `started` stays true. -/
theorem startup_once_witness :
    (stCore1.started = true ∧ stCommon2.started = true) ∧
    (coreStartup initCoreState .warn =
      ({ started := true, maxLevel := .warn, registry := [] }, .ok ()) ∧
    coreStartup stCore1 .trace = (stCore1, .error .AlreadyInitialized) ∧
    (coreStep stCore1 (.opSetMaxLevel .debug)).started = true ∧
    commonStartup initCommonState .warn =
      ({ started := true, maxLevel := .warn, registry := [] }, .ok ()) ∧
    commonStartup stCommon2 .trace = (stCommon2, .error .AlreadyInitialized) ∧
    (commonStep stCommon2 (.opSetMaxLevel .debug)).started = true) :=
  ⟨⟨rfl, rfl⟩,
    startup_once .warn .trace .trace stCore1 stCommon2 (.opSetMaxLevel .debug) rfl rfl⟩

/-- C10: `emit` and `flush` never modify the facade's own state — in both
variants `Logger::log` and `Logger::flush` take `&self` and only read the
sinks map, so the registry and the severity filter (indeed the whole
facade state) are identical before and after the call; only the sinks'
side effects (the returned call lists of `coreLog`/`coreFlush`/
`commonEmit`/`commonFlush`) happen. -/
theorem emit_flush_frame (st : CoreState) (stc : CommonState) (lvl : Level) :
    coreStep st (.opEmit lvl) = st ∧ coreStep st .opFlush = st ∧
    commonStep stc (.opEmit lvl) = stc ∧ commonStep stc .opFlush = stc :=
  ⟨rfl, rfl, rfl, rfl⟩

/-- C4 counterexample: the claim fails because nothing in the code keeps a
shut-down facade sealed — there is no ShutDown lifecycle guard.  From a
running core facade, after `shutdown` the sequence `add_sink(sinkB)`,
`set_max_level(Info)`, `emit(Info)` delivers the record to `sinkB`: the
reachable post-shutdown state has a non-`Off` filter, a nonempty registry,
and an emit that reaches a sink. -/
theorem shutdown_seal_counterexample :
    coreLog
        (coreStep (coreStep (coreStep stCore1 .opShutdown) (.opAddSink sinkB))
          (.opSetMaxLevel .info)) .info = [(1, 2)] ∧
    coreLog
        (coreStep (coreStep (coreStep stCore1 .opShutdown) (.opAddSink sinkB))
          (.opSetMaxLevel .info)) .info ≠ [] := by
  exact ⟨rfl, by decide⟩

/-- C4 amended: in the state immediately after `shutdown` returns on a
started facade — before any further facade operation — the severity filter
is `Off`, the registry is empty, and an emit at any level delivers the
record to no sink.  (The property does not persist under subsequent
operations: `add_sink` and `set_max_level` after `shutdown` still take
effect, see the counterexample.)  Proved for both variants. -/
theorem shutdown_immediate_seal
    (st : CoreState) (stc : CommonState)
    (h : st.started = true) (hc : stc.started = true) :
    (coreStep st .opShutdown).maxLevel = .off ∧
    (coreStep st .opShutdown).registry = [] ∧
    (∀ lvl, coreLog (coreStep st .opShutdown) lvl = []) ∧
    (commonStep stc .opShutdown).maxLevel = .off ∧
    (commonStep stc .opShutdown).registry = [] ∧
    (∀ lvl, commonEmit (commonStep stc .opShutdown) lvl = []) := by
  refine ⟨by simp [coreStep, h], by simp [coreStep, h], fun lvl => ?_,
    by simp [commonStep, hc], by simp [commonStep, hc], fun lvl => ?_⟩
  · simp [coreLog, coreStep, h, levelPasses_off]
  · simp [commonEmit, commonStep, hc, levelPasses_off]

/-- Witness for C4's amended theorem at the concrete running states. -/
theorem shutdown_immediate_seal_witness :
    (stCore1.started = true ∧ stCommon2.started = true) ∧
    ((coreStep stCore1 .opShutdown).maxLevel = .off ∧
    (coreStep stCore1 .opShutdown).registry = [] ∧
    (∀ lvl, coreLog (coreStep stCore1 .opShutdown) lvl = []) ∧
    (commonStep stCommon2 .opShutdown).maxLevel = .off ∧
    (commonStep stCommon2 .opShutdown).registry = [] ∧
    (∀ lvl, commonEmit (commonStep stCommon2 .opShutdown) lvl = [])) :=
  ⟨⟨rfl, rfl⟩, shutdown_immediate_seal stCore1 stCommon2 rfl rfl⟩

/-- C5 counterexample: a call made after `shutdown` is not a no-op —
`add_sink` on the shut-down facade changes the registry (the kind list goes
from `[]` to `[1]`), because `LOGGER.get()` is still `Some` after
`shutdown` and nothing checks a lifecycle state. -/
theorem noop_after_shutdown_counterexample :
    (coreStep (coreStep stCore1 .opShutdown) (.opAddSink sinkB)).registry.map
        Sink.kind ≠
      (coreStep stCore1 .opShutdown).registry.map Sink.kind := by
  decide

/-- C5 amended: none of `shutdown`, `add_sink`, `remove_sink`,
`set_max_level`, `emit`, `flush` can return an error (their embeddings are
total and carry no error channel, as in the Rust signatures).  Before
`startup` has ever succeeded, `shutdown`/`add_sink`/`remove_sink` are
no-ops and `emit`/`flush` reach no sink in both variants, and the common
variant's `set_max_level` is a no-op too — but the core variant's
`set_max_level` updates the global filter even before `startup`.  After
`shutdown` the calls are NOT no-ops: `add_sink` and `set_max_level` take
effect exactly as while running. -/
theorem ops_infallible_amended
    (st : CoreState) (stc : CommonState) (s : Sink) (lv : LevelFilter) (lvl : Level)
    (h : st.started = false) (hc : stc.started = false) :
    coreStep st .opShutdown = st ∧
    coreStep st (.opAddSink s) = st ∧
    coreStep st (.opRemoveSink s) = st ∧
    coreLog st lvl = [] ∧
    coreFlush st = [] ∧
    (coreStep st (.opSetMaxLevel lv)).maxLevel = lv ∧
    (coreStep st (.opSetMaxLevel lv)).registry = st.registry ∧
    commonStep stc .opShutdown = stc ∧
    commonStep stc (.opAddSink s) = stc ∧
    commonStep stc (.opRemoveSink s) = stc ∧
    commonStep stc (.opSetMaxLevel lv) = stc ∧
    commonEmit stc lvl = [] ∧
    commonFlush stc = [] ∧
    (∀ st2 : CoreState, st2.started = true →
      (coreStep (coreStep st2 .opShutdown) (.opAddSink s)).registry.map Sink.kind =
        [s.kind] ∧
      (coreStep (coreStep st2 .opShutdown) (.opSetMaxLevel lv)).maxLevel = lv) ∧
    (∀ st3 : CommonState, st3.started = true →
      (commonStep (commonStep st3 .opShutdown) (.opAddSink s)).registry.map
          Sink.kind = [s.kind] ∧
      (commonStep (commonStep st3 .opShutdown) (.opSetMaxLevel lv)).maxLevel = lv) := by
  refine ⟨by simp [coreStep, h], by simp [coreStep, h], by simp [coreStep, h],
    by simp [coreLog, h], by simp [coreFlush, h],
    by simp [coreStep], by simp [coreStep],
    by simp [commonStep, hc], by simp [commonStep, hc], by simp [commonStep, hc],
    by simp [commonStep, hc],
    by simp [commonEmit, hc], by simp [commonFlush, hc],
    fun st2 h2 => ?_, fun st3 h3 => ?_⟩
  · constructor
    · simp [coreStep, h2, insertSink]
    · simp [coreStep, h2]
  · constructor
    · simp [commonStep, h3, insertSink]
    · simp [commonStep, h3]

/-- Witness for C5's amended theorem at the initial states, with `sinkB`,
filter `Debug`, level `Info`. -/
theorem ops_infallible_amended_witness :
    (initCoreState.started = false ∧ initCommonState.started = false) ∧
    (coreStep initCoreState .opShutdown = initCoreState ∧
    coreStep initCoreState (.opAddSink sinkB) = initCoreState ∧
    coreStep initCoreState (.opRemoveSink sinkB) = initCoreState ∧
    coreLog initCoreState .info = [] ∧
    coreFlush initCoreState = [] ∧
    (coreStep initCoreState (.opSetMaxLevel .debug)).maxLevel = .debug ∧
    (coreStep initCoreState (.opSetMaxLevel .debug)).registry =
      initCoreState.registry ∧
    commonStep initCommonState .opShutdown = initCommonState ∧
    commonStep initCommonState (.opAddSink sinkB) = initCommonState ∧
    commonStep initCommonState (.opRemoveSink sinkB) = initCommonState ∧
    commonStep initCommonState (.opSetMaxLevel .debug) = initCommonState ∧
    commonEmit initCommonState .info = [] ∧
    commonFlush initCommonState = [] ∧
    (∀ st2 : CoreState, st2.started = true →
      (coreStep (coreStep st2 .opShutdown) (.opAddSink sinkB)).registry.map
          Sink.kind = [sinkB.kind] ∧
      (coreStep (coreStep st2 .opShutdown) (.opSetMaxLevel .debug)).maxLevel =
        .debug) ∧
    (∀ st3 : CommonState, st3.started = true →
      (commonStep (commonStep st3 .opShutdown) (.opAddSink sinkB)).registry.map
          Sink.kind = [sinkB.kind] ∧
      (commonStep (commonStep st3 .opShutdown) (.opSetMaxLevel .debug)).maxLevel =
        .debug)) :=
  ⟨⟨rfl, rfl⟩,
    ops_infallible_amended initCoreState initCommonState sinkB .debug .info rfl rfl⟩

theorem kindsNodup_insertSink (r : List Sink) (s : Sink) (hn : kindsNodup r) :
    kindsNodup (insertSink r s) := by
  unfold kindsNodup insertSink
  rw [List.map_append]
  refine List.Nodup.append ?_ (List.nodup_singleton _) ?_
  · exact List.Nodup.sublist (List.Sublist.map Sink.kind (List.filter_sublist r)) hn
  · intro k hk hk'
    obtain ⟨t, ht, rfl⟩ := List.mem_map.mp hk
    have h1 : (t.kind != s.kind) = true := (List.mem_filter.mp ht).2
    have h2 : t.kind = s.kind := by simpa using hk'
    simp [h2] at h1

theorem kindsNodup_removeKind (r : List Sink) (k : Nat) (hn : kindsNodup r) :
    kindsNodup (removeKind r k) := by
  unfold kindsNodup removeKind
  exact List.Nodup.sublist (List.Sublist.map Sink.kind (List.filter_sublist r)) hn

theorem insertSink_insertSink_same (r : List Sink) (a b : Sink)
    (hk : a.kind = b.kind) : insertSink (insertSink r a) b = insertSink r b := by
  unfold insertSink
  rw [List.filter_append, List.filter_filter, hk]
  simp [hk]

theorem filter_insertSink_self (r : List Sink) (b : Sink) :
    (insertSink r b).filter (fun t => t.kind == b.kind) = [b] := by
  unfold insertSink
  rw [List.filter_append, List.filter_filter]
  simp

/-- C6: the registry holds at most one sink per kind: every facade
operation of both variants preserves the at-most-one-entry-per-kind
invariant, and `add_sink` with a second instance `b` of an
already-registered kind replaces the prior instance `a` (last-writer-wins):
afterwards the only entry of that kind is `b`, and no emit at any level
ever reaches `a` again. -/
theorem registry_one_per_kind
    (st : CoreState) (stc : CommonState) (op : Op) (a b : Sink)
    (hn : kindsNodup st.registry) (hnc : kindsNodup stc.registry)
    (hk : a.kind = b.kind) (hi : a.instId ≠ b.instId) (hrun : st.started = true) :
    kindsNodup (coreStep st op).registry ∧
    kindsNodup (commonStep stc op).registry ∧
    (coreStep (coreStep st (.opAddSink a)) (.opAddSink b)).registry.filter
        (fun t => t.kind == a.kind) = [b] ∧
    (∀ lvl,
      a.ref ∉ coreLog (coreStep (coreStep st (.opAddSink a)) (.opAddSink b)) lvl) := by
  have hreg :
      (coreStep (coreStep st (.opAddSink a)) (.opAddSink b)).registry =
        insertSink st.registry b := by
    simp [coreStep, hrun, insertSink_insertSink_same st.registry a b hk]
  refine ⟨?_, ?_, ?_, ?_⟩
  · cases op with
    | opStartup lv => simpa [coreStep, coreStartup, hrun] using hn
    | opShutdown => simp [coreStep, hrun, kindsNodup]
    | opAddSink s =>
      simpa [coreStep, hrun] using kindsNodup_insertSink st.registry s hn
    | opRemoveSink s =>
      simpa [coreStep, removeSinkOp, hrun] using
        kindsNodup_removeKind st.registry s.kind hn
    | opSetMaxLevel lv => simpa [coreStep] using hn
    | opEmit lvl => simpa [coreStep] using hn
    | opFlush => simpa [coreStep] using hn
  · cases op with
    | opStartup lv =>
      by_cases h : stc.started <;> simpa [commonStep, commonStartup, h] using hnc
    | opShutdown =>
      by_cases h : stc.started
      · simp [commonStep, h, kindsNodup]
      · simpa [commonStep, h] using hnc
    | opAddSink s =>
      by_cases h : stc.started
      · simpa [commonStep, h] using kindsNodup_insertSink stc.registry s hnc
      · simpa [commonStep, h] using hnc
    | opRemoveSink s =>
      by_cases h : stc.started
      · simpa [commonStep, removeSinkOp, h] using
          kindsNodup_removeKind stc.registry s.kind hnc
      · simpa [commonStep, h] using hnc
    | opSetMaxLevel lv =>
      by_cases h : stc.started <;> simpa [commonStep, h] using hnc
    | opEmit lvl => simpa [commonStep] using hnc
    | opFlush => simpa [commonStep] using hnc
  · rw [hreg, hk, filter_insertSink_self]
  · intro lvl hmem
    rw [coreLog] at hmem
    by_cases hcond :
        ((coreStep (coreStep st (.opAddSink a)) (.opAddSink b)).started &&
          levelPasses lvl
            (coreStep (coreStep st (.opAddSink a)) (.opAddSink b)).maxLevel) = true
    · rw [if_pos hcond, hreg] at hmem
      obtain ⟨t, ht, htr, _⟩ := mem_logLoop hmem
      unfold insertSink at ht
      rcases List.mem_append.mp ht with ht' | ht'
      · have h1 : (t.kind != b.kind) = true := (List.mem_filter.mp ht').2
        have h2 : t.kind = a.kind := congrArg Prod.fst htr
        simp [h2, hk] at h1
      · have : t = b := by simpa using ht'
        subst this
        have : t.instId = a.instId := congrArg Prod.snd htr
        exact hi this.symm
    · rw [if_neg hcond] at hmem
      simp at hmem

/-- Witness for C6: replacing `sinkA` by `sinkB` (both of kind 1) in a
running facade, with `op` a further `add_sink` of kind 2. -/
theorem registry_one_per_kind_witness :
    (kindsNodup stCore1.registry ∧ kindsNodup stCommon2.registry ∧
      sinkA.kind = sinkB.kind ∧ sinkA.instId ≠ sinkB.instId ∧
      stCore1.started = true) ∧
    (kindsNodup (coreStep stCore1 (.opAddSink sinkC)).registry ∧
    kindsNodup (commonStep stCommon2 (.opAddSink sinkC)).registry ∧
    (coreStep (coreStep stCore1 (.opAddSink sinkA)) (.opAddSink sinkB)).registry.filter
        (fun t => t.kind == sinkA.kind) = [sinkB] ∧
    (∀ lvl,
      sinkA.ref ∉
        coreLog (coreStep (coreStep stCore1 (.opAddSink sinkA)) (.opAddSink sinkB))
          lvl)) :=
  ⟨⟨by unfold kindsNodup; decide, by unfold kindsNodup; decide, rfl, by decide, rfl⟩,
    registry_one_per_kind stCore1 stCommon2 (.opAddSink sinkC) sinkA sinkB
      (by unfold kindsNodup; decide) (by unfold kindsNodup; decide)
      rfl (by decide) rfl⟩

/-- C9: `remove_sink` identifies the registration to delete solely by the
concrete type of its argument (`TypeId::of::<S>()`) and never reads the
argument's value (the parameter is the unused `_sink`): for any two
instances `a` and `b` of the same kind, `add_sink(a)` followed by
`remove_sink(b)` leaves the registry with no sink of that kind — at the
registry level the result is exactly the original registry minus that
kind, and at the facade level (both variants, while started) the same
holds. -/
theorem remove_sink_by_kind_only
    (r : List Sink) (st : CoreState) (stc : CommonState) (a b : Sink)
    (hk : a.kind = b.kind) (hrun : st.started = true) (hrunc : stc.started = true) :
    removeSinkOp (insertSink r a) b = removeKind r a.kind ∧
    (∀ t ∈ removeSinkOp (insertSink r a) b, t.kind ≠ a.kind) ∧
    (coreStep (coreStep st (.opAddSink a)) (.opRemoveSink b)).registry =
      removeKind st.registry a.kind ∧
    (commonStep (commonStep stc (.opAddSink a)) (.opRemoveSink b)).registry =
      removeKind stc.registry a.kind := by
  have key : ∀ r' : List Sink, removeSinkOp (insertSink r' a) b = removeKind r' a.kind := by
    intro r'
    unfold removeSinkOp removeKind insertSink
    rw [List.filter_append, List.filter_filter, ← hk]
    simp [hk]
  refine ⟨key r, fun t ht => ?_, ?_, ?_⟩
  · unfold removeSinkOp removeKind at ht
    have h1 : (t.kind != b.kind) = true := (List.mem_filter.mp ht).2
    rw [hk]
    simpa using h1
  · simpa [coreStep, hrun] using key st.registry
  · simpa [commonStep, hrunc] using key stc.registry

/-- Witness for C9: `add_sink(sinkA)` then `remove_sink(sinkB)` (same kind,
different instance) on running facades. -/
theorem remove_sink_by_kind_only_witness :
    (sinkA.kind = sinkB.kind ∧ stCore1.started = true ∧ stCommon2.started = true) ∧
    (removeSinkOp (insertSink [sinkC] sinkA) sinkB = removeKind [sinkC] sinkA.kind ∧
    (∀ t ∈ removeSinkOp (insertSink [sinkC] sinkA) sinkB, t.kind ≠ sinkA.kind) ∧
    (coreStep (coreStep stCore1 (.opAddSink sinkA)) (.opRemoveSink sinkB)).registry =
      removeKind stCore1.registry sinkA.kind ∧
    (commonStep (commonStep stCommon2 (.opAddSink sinkA))
        (.opRemoveSink sinkB)).registry =
      removeKind stCommon2.registry sinkA.kind) :=
  ⟨⟨rfl, rfl, rfl⟩,
    remove_sink_by_kind_only [sinkC] stCore1 stCommon2 sinkA sinkB rfl rfl rfl⟩

/-- C8 (the code lacks the claimed isolation): neither dispatch loop
isolates sink calls — there is no `catch_unwind` — so a sink that panics
inside `log` or `flush` unwinds out of the `for` loop and the sinks not
yet iterated receive nothing.  Concretely: with a faulting sink of kind 1
iterated before a well-behaved, enabled sink of kind 2, the dispatch at
`Info` calls only the faulting sink and sink 2 never receives the record;
likewise for `flush` during shutdown. -/
theorem dispatch_no_isolation :
    logCallsWithFault [faultyLogSink, plainSink] .info = ([(1, 1)], some (1, 1)) ∧
    (2, 2) ∉ (logCallsWithFault [faultyLogSink, plainSink] .info).1 ∧
    flushCallsWithFault [faultyFlushSink, plainSink] = ([(3, 3)], some (3, 3)) ∧
    (2, 2) ∉ (flushCallsWithFault [faultyFlushSink, plainSink]).1 := by
  exact ⟨rfl, by decide, rfl, by decide⟩

theorem str_append_ne_empty (a b : String) (h : a ≠ "") : a ++ b ≠ "" := by
  intro hab
  apply h
  have hd : a.data ++ b.data = [] := by
    have hc := congrArg String.data hab
    rwa [String.data_append] at hc
  exact String.ext (List.append_eq_nil.mp hd).1

theorem token_ne_empty (n v : String) : n ++ "=" ++ v ≠ "" := by
  intro h
  have hd : (n.data ++ ("=" : String).data) ++ v.data = [] := by
    have hc := congrArg String.data h
    rwa [String.data_append, String.data_append] at hc
  have h2 : ("=" : String).data = ([] : List Char) :=
    (List.append_eq_nil.mp (List.append_eq_nil.mp hd).1).2
  exact absurd h2 (by decide)

theorem visit_msg_fold (fields : List Field) : ∀ vis : StringVisitor,
    (fields.foldl StringVisitor.recordField vis).msg =
      vis.msg ++ specMsgConcat fields := by
  induction fields with
  | nil => intro vis; simp [specMsgConcat, String.append_empty]
  | cons f rest ih =>
    intro vis
    rw [List.foldl_cons, ih]
    by_cases hf : f.name == "message"
    · simp [StringVisitor.recordField, hf, specMsgConcat, String.append_assoc]
    · simp [StringVisitor.recordField, hf, specMsgConcat]

theorem specJoinSpace_cons (t : String) (ts : List String) :
    specJoinSpace (t :: ts) = t ++ specTailTokens ts := by
  induction ts generalizing t with
  | nil => simp [specJoinSpace, specTailTokens, String.append_empty]
  | cons t2 ts ih =>
    rw [specJoinSpace, ih, specTailTokens]
    simp [String.append_assoc]

theorem visit_args_fold_ne (fields : List Field) : ∀ vis : StringVisitor,
    vis.args ≠ "" →
    (fields.foldl StringVisitor.recordField vis).args =
      vis.args ++ specTailTokens (specArgTokens fields) := by
  induction fields with
  | nil =>
    intro vis h
    simp [specArgTokens, specTailTokens, String.append_empty]
  | cons f rest ih =>
    intro vis h
    rw [List.foldl_cons]
    by_cases hf : f.name == "message"
    · have hfp : f.name = "message" := by simpa using hf
      rw [ih _ (by simpa [StringVisitor.recordField, hf] using h)]
      simp [StringVisitor.recordField, hf, hfp, specArgTokens, List.filter_cons]
    · have hfp : ¬f.name = "message" := by simpa using hf
      have hne : vis.args.isEmpty = false := by
        rw [Bool.eq_false_iff]
        intro hemp
        exact h ((String.isEmpty_iff vis.args).mp hemp)
      have hargs : (StringVisitor.recordField vis f).args =
          vis.args ++ " " ++ f.name ++ "=" ++ f.value.render := by
        simp [StringVisitor.recordField, hf, hne]
      rw [ih _ (by
        rw [hargs]
        exact str_append_ne_empty _ _ (str_append_ne_empty _ _
          (str_append_ne_empty _ _ (str_append_ne_empty _ _ h)))), hargs]
      simp [specArgTokens, List.filter_cons, hf, hfp, specTailTokens,
        String.append_assoc]

theorem visit_args_fold_empty (fields : List Field) : ∀ vis : StringVisitor,
    vis.args = "" →
    (fields.foldl StringVisitor.recordField vis).args =
      specJoinSpace (specArgTokens fields) := by
  induction fields with
  | nil =>
    intro vis h
    simpa [specArgTokens, specJoinSpace] using h
  | cons f rest ih =>
    intro vis h
    rw [List.foldl_cons]
    by_cases hf : f.name == "message"
    · have hfp : f.name = "message" := by simpa using hf
      rw [ih _ (by simp [StringVisitor.recordField, hf, h])]
      simp [specArgTokens, List.filter_cons, hf, hfp]
    · have hfp : ¬f.name = "message" := by simpa using hf
      have hemp : vis.args.isEmpty = true := by rw [h]; rfl
      have hlit : ("" : String).isEmpty = true := rfl
      have hargs : (StringVisitor.recordField vis f).args =
          f.name ++ "=" ++ f.value.render := by
        simp [StringVisitor.recordField, hf, hemp, h, hlit, String.empty_append]
      rw [visit_args_fold_ne rest _ (by rw [hargs]; exact token_ne_empty _ _), hargs]
      have htok : specArgTokens (f :: rest) =
          (f.name ++ "=" ++ f.value.render) :: specArgTokens rest := by
        simp [specArgTokens, List.filter_cons, hf, hfp]
      rw [htok, specJoinSpace_cons]

theorem mem_specArgTokens_ne_empty (fields : List Field) :
    ∀ t ∈ specArgTokens fields, t ≠ "" := by
  intro t ht
  obtain ⟨f, _, rfl⟩ := List.mem_map.mp ht
  exact token_ne_empty _ _

theorem specJoinSpace_tokens_empty (fields : List Field) :
    specJoinSpace (specArgTokens fields) = "" ↔ specArgTokens fields = [] := by
  constructor
  · intro h
    cases hts : specArgTokens fields with
    | nil => rfl
    | cons t ts =>
      rw [hts, specJoinSpace_cons] at h
      exact absurd h (str_append_ne_empty _ _
        (mem_specArgTokens_ne_empty fields t (hts ▸ List.mem_cons_self t ts)))
  · intro h
    rw [h]
    rfl

/-- C7: for every ordered field sequence given to an emit, the visitor
folds every field named `message` into the primary message text (its
rendering — the `Debug` text verbatim for a debug-typed value, the
`Display` text otherwise — appended in order, `specMsgConcat`); every
other field renders as `name=value` in declaration order, the tokens
joined by single spaces (`specJoinSpace` over `specArgTokens`); and the
args string passed on by `on_event` is absent (`none`) exactly when there
are no non-`message` fields. -/
theorem field_formatting (fields : List Field) :
    onEventMsg fields = specMsgConcat fields ∧
    (visitFields fields).args = specJoinSpace (specArgTokens fields) ∧
    (onEventArgs fields = none ↔
      (fields.filter fun f => f.name != "message") = []) := by
  have hargs : (visitFields fields).args = specJoinSpace (specArgTokens fields) :=
    visit_args_fold_empty fields { msg := "", args := "" } rfl
  refine ⟨?_, hargs, ?_⟩
  · unfold onEventMsg visitFields
    rw [visit_msg_fold fields { msg := "", args := "" }]
    exact String.empty_append _
  · unfold onEventArgs
    by_cases hemp : (visitFields fields).args.isEmpty
    · simp only [hemp, if_pos, true_iff]
      have he : (visitFields fields).args = "" := (String.isEmpty_iff _).mp hemp
      rw [hargs] at he
      have htok := (specJoinSpace_tokens_empty fields).mp he
      unfold specArgTokens at htok
      exact List.map_eq_nil_iff.mp htok
    · simp only [hemp, if_neg, Bool.false_eq_true]
      constructor
      · intro hcontra
        simp at hcontra
      · intro hfil
        exfalso
        apply hemp
        have htok : specArgTokens fields = [] := by
          unfold specArgTokens
          rw [hfil]
          rfl
        rw [String.isEmpty_iff, hargs, htok]
        rfl

end Galleon
